import Mathlib

/-!
Shallow embedding of the service-mesh simulation's resilience core:
the per-service circuit breaker (`mesh/circuit_breaker.py`), the retry
policy (`mesh/retry_handler.py`), and the gateway composition rule
(`gateway.py`, `call_with_mesh`).

Modelling conventions:
* Timestamps are natural numbers (`datetime.now()` becomes an explicit
  `now : Nat` argument; `timedelta` comparison becomes subtraction on `Nat`).
* A backend operation's behaviour is passed in as data: for a single
  breaker-gated attempt, the outcome `Except String V` the operation would
  produce if invoked; for the retry loop and the gateway, a function
  `Nat → Except String V` from the invocation index to that invocation's
  outcome.  The embedding separately reports how many invocations happened.
* Python exceptions are their message strings (`Except.error msg`).
* `print` calls become an explicit log, a `List String`, because the
  failure log line is where the service name is attached for observability.
-/

namespace ServiceMesh

/-- Substring test on `List Char`: does the list start with `need`? -/
def beginsWith : List Char → List Char → Bool
  | [], _ => true
  | _ :: _, [] => false
  | a :: as, b :: bs => a == b && beginsWith as bs

/-- Substring test on `List Char`: does `need` occur anywhere in the haystack? -/
def containsSub (need : List Char) : List Char → Bool
  | [] => beginsWith need []
  | c :: t => beginsWith need (c :: t) || containsSub need t

/-- Python's `needle in haystack` on strings. -/
def strContains (hay need : String) : Bool :=
  containsSub need.toList hay.toList

deriving instance DecidableEq for Except

/-- `models.CircuitState` (Python enum `CLOSED | OPEN | HALF_OPEN`). -/
inductive CircuitState where
  | CLOSED
  | OPEN
  | HALF_OPEN
deriving DecidableEq

/-- `models.CircuitBreaker` (pydantic model with defaults). -/
structure CircuitBreaker where
  service_name : String
  state : CircuitState := CircuitState.CLOSED
  failure_count : Nat := 0
  last_failure_time : Option Nat := none
  failure_threshold : Nat := 3
  timeout_seconds : Nat := 30
deriving DecidableEq

/-- `CircuitBreakerManager`: the breaker registry plus its fixed configuration.
The `breakers` dict is an insertion-ordered association list. -/
structure CircuitBreakerManager where
  breakers : List (String × CircuitBreaker) := []
  failure_threshold : Nat := 3
  timeout_seconds : Nat := 30
deriving DecidableEq

/-- `CircuitBreakerManager()`: empty registry, threshold 3, timeout 30s. -/
def initialManager : CircuitBreakerManager := {}

/-- Lookup in the breaker dict (first entry with the given key). -/
def lookupBreaker : List (String × CircuitBreaker) → String → Option CircuitBreaker
  | [], _ => none
  | (k, b) :: t, name => if k = name then some b else lookupBreaker t name

/-- In-place mutation of the breaker object held in the dict: every entry
for `name` is replaced by the updated breaker. -/
def setBreaker : List (String × CircuitBreaker) → String → CircuitBreaker → List (String × CircuitBreaker)
  | [], _, _ => []
  | (k, b) :: t, name, b' =>
    if k = name then (k, b') :: setBreaker t name b' else (k, b) :: setBreaker t name b'

/-- `CircuitBreakerManager.get_breaker`: look up or lazily create a breaker
for the service, inheriting the manager's configuration. -/
def get_breaker (m : CircuitBreakerManager) (name : String) : CircuitBreaker × CircuitBreakerManager :=
  match lookupBreaker m.breakers name with
  | some b => (b, m)
  | none =>
    let b : CircuitBreaker :=
      { service_name := name
        failure_threshold := m.failure_threshold
        timeout_seconds := m.timeout_seconds }
    (b, { m with breakers := m.breakers ++ [(name, b)] })

/-- `CircuitBreakerManager._should_attempt_reset`: an absent
`last_failure_time` permits the probe; otherwise probe only when strictly
more than `timeout_seconds` has passed since the last failure. -/
def should_attempt_reset (now : Nat) (b : CircuitBreaker) : Bool :=
  match b.last_failure_time with
  | none => true
  | some t => now - t > b.timeout_seconds

/-- The message of the exception raised when an open breaker gates a call. -/
def circuitOpenMessage (name : String) : String :=
  "Circuit breaker OPEN for " ++ name ++ " - service unavailable"

/-- Everything one `call_service` invocation produces: the returned value or
raised exception message, the updated registry, the log lines printed, and
how many times the backend operation was invoked (0 or 1). -/
structure CallOutcome (V : Type) where
  result : Except String V
  manager : CircuitBreakerManager
  logs : List String
  invocations : Nat
deriving DecidableEq

/-- The `OPEN` gate of `call_service`: when the breaker is open and the
probe is allowed, move it to `HALF_OPEN` (with the corresponding log line);
otherwise leave it as is. -/
def gate_transform (b0 : CircuitBreaker) (name : String) : CircuitBreaker × List String :=
  if b0.state = CircuitState.OPEN then
    ({ b0 with state := CircuitState.HALF_OPEN },
      ["[CIRCUIT] Circuit breaker for " ++ name ++ " is HALF-OPEN (testing)"])
  else (b0, [])

/-- The success branch of `call_service`: `HALF_OPEN` recovers to `CLOSED`
with a zeroed counter; `CLOSED` just zeroes the counter. -/
def on_success (b1 : CircuitBreaker) (name : String) : CircuitBreaker × List String :=
  if b1.state = CircuitState.HALF_OPEN then
    ({ b1 with state := CircuitState.CLOSED, failure_count := 0 },
      ["[CIRCUIT] Circuit breaker for " ++ name ++ " is CLOSED (recovered)"])
  else if b1.state = CircuitState.CLOSED then
    ({ b1 with failure_count := 0 }, [])
  else (b1, [])

/-- The failure branch of `call_service`: bump the counter, stamp the
failure time, log the failure tagged with the service name, and open the
circuit when the counter reaches the threshold. -/
def on_failure (b1 : CircuitBreaker) (name : String) (e : String) (now : Nat) :
    CircuitBreaker × List String :=
  let fc := b1.failure_count + 1
  let b2 : CircuitBreaker := { b1 with failure_count := fc, last_failure_time := some now }
  let failLog : String :=
    "[CIRCUIT] Service " ++ name ++ " failed (" ++ toString fc ++ "/" ++
      toString b1.failure_threshold ++ "): " ++ e
  if fc ≥ b2.failure_threshold then
    ({ b2 with state := CircuitState.OPEN },
      [failLog, "[CIRCUIT] Circuit breaker OPENED for " ++ name ++ " - too many failures!"])
  else (b2, [failLog])

/-- `CircuitBreakerManager.call_service`, with the single attempt's backend
outcome passed in as `outcome` and the clock as `now`. -/
def call_service {V : Type} (m : CircuitBreakerManager) (name : String)
    (outcome : Except String V) (now : Nat) : CallOutcome V :=
  let p := get_breaker m name
  let b0 := p.1
  let m1 := p.2
  if b0.state = CircuitState.OPEN ∧ ¬ (should_attempt_reset now b0 = true) then
    { result := Except.error (circuitOpenMessage name)
      manager := m1
      logs := []
      invocations := 0 }
  else
    let g := gate_transform b0 name
    match outcome with
    | Except.ok v =>
      let p2 := on_success g.1 name
      { result := Except.ok v
        manager := { m1 with breakers := setBreaker m1.breakers name p2.1 }
        logs := g.2 ++ p2.2
        invocations := 1 }
    | Except.error e =>
      let p3 := on_failure g.1 name e now
      { result := Except.error e
        manager := { m1 with breakers := setBreaker m1.breakers name p3.1 }
        logs := g.2 ++ p3.2
        invocations := 1 }

/-- One entry of the `get_status` snapshot. -/
structure BreakerStatus where
  state : CircuitState
  failure_count : Nat
  last_failure : Option String
deriving DecidableEq

/-- `CircuitBreakerManager.get_status`: read-only snapshot, no side effects. -/
def get_status (m : CircuitBreakerManager) : List (String × BreakerStatus) :=
  m.breakers.map (fun p =>
    (p.1, { state := p.2.state
            failure_count := p.2.failure_count
            last_failure := p.2.last_failure_time.map (fun t => toString t) }))

/-- `CircuitBreakerManager.reset_breaker`: force a known breaker back to
`CLOSED`/0/absent and report whether the service was known. -/
def reset_breaker (m : CircuitBreakerManager) (name : String) : Bool × CircuitBreakerManager :=
  match lookupBreaker m.breakers name with
  | some b =>
    let b' : CircuitBreaker :=
      { b with state := CircuitState.CLOSED, failure_count := 0, last_failure_time := none }
    (true, { m with breakers := setBreaker m.breakers name b' })
  | none => (false, m)

/-- What `retry_call` finally does: return a value, re-raise the last
attempt's exception, or — when the loop body never ran because
`max_attempts` was 0 — `raise None` (a `TypeError` in Python). -/
inductive RetryResult (V : Type) where
  | ok (v : V)
  | err (e : String)
  | raiseNone
deriving DecidableEq

/-- The loop of `RetryHandler.retry_call`, from attempt number `attempt`
with `last` the most recent exception.  The loop condition
`attempt ≤ max_attempts` is carried structurally as `remaining`, the number
of loop iterations still to run (`remaining = max_attempts + 1 - attempt`
throughout); when it hits 0 the loop is over and the last exception is
raised.  Returns the final result, the number of backend invocations
performed from this point on, and the total backoff slept
(`base_delay * 2^(attempt-1) + jitter attempt` after each non-final failed
attempt). -/
def retry_go {V : Type} (f : Nat → Except String V) (base : ℚ) (jitter : Nat → ℚ)
    (max_attempts : Nat) : Nat → Nat → Option String → RetryResult V × Nat × ℚ
  | 0, _, some e => (RetryResult.err e, 0, 0)
  | 0, _, none => (RetryResult.raiseNone, 0, 0)
  | remaining + 1, attempt, _ =>
    match f attempt with
    | Except.ok v => (RetryResult.ok v, 1, 0)
    | Except.error e =>
      let r := retry_go f base jitter max_attempts remaining (attempt + 1) (some e)
      let sleep : ℚ :=
        if attempt < max_attempts then base * 2 ^ (attempt - 1) + jitter attempt else 0
      (r.1, r.2.1 + 1, r.2.2 + sleep)

/-- `RetryHandler.retry_call`: attempts run from 1 to `max_attempts`; `f n`
is the outcome the backend produces on its `n`-th invocation by this loop. -/
def retry_call {V : Type} (max_attempts : Nat) (base : ℚ) (jitter : Nat → ℚ)
    (f : Nat → Except String V) : RetryResult V × Nat × ℚ :=
  retry_go f base jitter max_attempts max_attempts 1 none

/-- Python's `str.lower()` on the message (basic-latin lowering, applied
character by character). -/
def strToLower (s : String) : String :=
  String.mk (s.data.map Char.toLower)

/-- `RetryHandler.should_retry`: failures whose lowercased message contains
one of the four markers are classified non-retryable. -/
def should_retry (msg : String) : Bool :=
  let error_message := strToLower msg
  let non_retryable : List String := ["not found", "unauthorized", "forbidden", "bad request"]
  ! non_retryable.any (fun s => strContains error_message s)

/-- Everything one `call_with_mesh` invocation produces. `f n` is the outcome
of the backend's `n`-th invocation overall (the breaker-gated attempt, when
it happens, is invocation 1; direct retry attempts follow). -/
structure MeshOutcome (V : Type) where
  result : RetryResult V
  manager : CircuitBreakerManager
  logs : List String
  breaker_invocations : Nat
  retry_invocations : Nat
  retry_sleep : ℚ
deriving DecidableEq

/-- `ServiceMeshGateway.call_with_mesh`: one breaker-gated attempt; on an
exception whose message does not contain `"Circuit breaker OPEN"`, escalate
to `retry_call` on the same backend (bypassing the breaker); otherwise
re-raise. -/
def call_with_mesh {V : Type} (m : CircuitBreakerManager) (name : String)
    (f : Nat → Except String V) (now : Nat)
    (max_attempts : Nat) (base : ℚ) (jitter : Nat → ℚ) : MeshOutcome V :=
  let c := call_service m name (f 1) now
  match c.result with
  | Except.ok v =>
    { result := RetryResult.ok v
      manager := c.manager
      logs := c.logs
      breaker_invocations := c.invocations
      retry_invocations := 0
      retry_sleep := 0 }
  | Except.error e =>
    if ¬ (strContains e "Circuit breaker OPEN" = true) then
      let r := retry_call max_attempts base jitter (fun n => f (n + 1))
      { result := r.1
        manager := c.manager
        logs := c.logs
        breaker_invocations := c.invocations
        retry_invocations := r.2.1
        retry_sleep := r.2.2 }
    else
      { result := RetryResult.err e
        manager := c.manager
        logs := c.logs
        breaker_invocations := c.invocations
        retry_invocations := 0
        retry_sleep := 0 }

/-- Registry states reachable from the initial empty registry by any
sequence of `call_service`, `get_status` and `reset_breaker` operations
(`get_status` is read-only, so its step leaves the registry unchanged). -/
inductive Reachable : CircuitBreakerManager → Prop where
  | init : Reachable initialManager
  | call {V : Type} {m : CircuitBreakerManager} (name : String)
      (outcome : Except String V) (now : Nat) :
      Reachable m → Reachable (call_service m name outcome now).manager
  | status {m : CircuitBreakerManager} : Reachable m → Reachable m
  | reset {m : CircuitBreakerManager} (name : String) :
      Reachable m → Reachable (reset_breaker m name).2

/-! ### Registry lookup lemmas -/

theorem lookupBreaker_setBreaker (l : List (String × CircuitBreaker)) (name : String)
    (b' : CircuitBreaker) :
    lookupBreaker (setBreaker l name b') name = (lookupBreaker l name).map (fun _ => b') := by
  induction l with
  | nil => rfl
  | cons hd tl ih =>
    obtain ⟨k, b⟩ := hd
    by_cases hk : k = name
    · simp [setBreaker, lookupBreaker, hk]
    · simp [setBreaker, lookupBreaker, hk, ih]

theorem lookupBreaker_setBreaker_cases (l : List (String × CircuitBreaker))
    (name k : String) (b' c : CircuitBreaker)
    (h : lookupBreaker (setBreaker l name b') k = some c) :
    c = b' ∨ lookupBreaker l k = some c := by
  induction l with
  | nil => simp [setBreaker, lookupBreaker] at h
  | cons hd tl ih =>
    obtain ⟨k', b⟩ := hd
    by_cases hk : k' = name
    · simp only [setBreaker, if_pos hk, lookupBreaker] at h ⊢
      by_cases hk2 : k' = k
      · simp [hk2] at h ⊢
        exact Or.inl h.symm
      · simp [hk2] at h ⊢
        exact ih h
    · simp only [setBreaker, if_neg hk, lookupBreaker] at h ⊢
      by_cases hk2 : k' = k
      · simp [hk2] at h ⊢
        exact Or.inr h
      · simp [hk2] at h ⊢
        exact ih h

theorem lookupBreaker_append_none (l : List (String × CircuitBreaker)) (name : String)
    (b : CircuitBreaker) (h : lookupBreaker l name = none) :
    lookupBreaker (l ++ [(name, b)]) name = some b := by
  induction l with
  | nil => simp [lookupBreaker]
  | cons hd tl ih =>
    obtain ⟨k, b0⟩ := hd
    by_cases hk : k = name
    · simp [lookupBreaker, hk] at h
    · simp only [lookupBreaker, if_neg hk] at h
      simpa [lookupBreaker, hk] using ih h

theorem lookupBreaker_append_cases (l : List (String × CircuitBreaker))
    (name k : String) (b c : CircuitBreaker)
    (h : lookupBreaker (l ++ [(name, b)]) k = some c) :
    lookupBreaker l k = some c ∨ c = b := by
  induction l with
  | nil =>
    simp only [List.nil_append, lookupBreaker] at h
    by_cases hk : name = k
    · simp [hk] at h
      exact Or.inr h.symm
    · simp [hk] at h
  | cons hd tl ih =>
    obtain ⟨k', b0⟩ := hd
    by_cases hk : k' = k
    · simp only [List.cons_append, lookupBreaker, if_pos hk] at h ⊢
      exact Or.inl h
    · simp only [List.cons_append, lookupBreaker, if_neg hk] at h ⊢
      exact ih h

theorem get_breaker_lookup (m : CircuitBreakerManager) (name : String) :
    lookupBreaker (get_breaker m name).2.breakers name = some (get_breaker m name).1 := by
  unfold get_breaker
  cases h : lookupBreaker m.breakers name with
  | some b => simpa using h
  | none => simpa using lookupBreaker_append_none m.breakers name _ h

/-! ### The open-breaker invariant -/

/-- The invariant a single breaker maintains: when it is `OPEN`, its
failure count has reached its threshold and its last failure time is
recorded. -/
def BreakerInv (b : CircuitBreaker) : Prop :=
  b.state = CircuitState.OPEN →
    b.failure_threshold ≤ b.failure_count ∧ ∃ t, b.last_failure_time = some t

/-- The registry-wide invariant: every breaker in the registry satisfies
`BreakerInv`. -/
def ManagerInv (m : CircuitBreakerManager) : Prop :=
  ∀ name b, lookupBreaker m.breakers name = some b → BreakerInv b

theorem breakerInv_gate_transform {b0 : CircuitBreaker} (name : String)
    (h : BreakerInv b0) : BreakerInv (gate_transform b0 name).1 := by
  unfold gate_transform
  by_cases hs : b0.state = CircuitState.OPEN
  · simp [hs, BreakerInv]
  · simpa [hs] using h

theorem breakerInv_on_success {b1 : CircuitBreaker} (name : String)
    (h : BreakerInv b1) : BreakerInv (on_success b1 name).1 := by
  unfold on_success
  by_cases h1 : b1.state = CircuitState.HALF_OPEN
  · simp [h1, BreakerInv]
  · by_cases h2 : b1.state = CircuitState.CLOSED
    · simp only [if_neg h1, if_pos h2]
      intro hopen
      simp only [CircuitBreaker.mk.injEq] at hopen ⊢
      exact absurd hopen (by simp [h2])
    · simpa [h1, h2] using h

theorem breakerInv_on_failure {b1 : CircuitBreaker} (name e : String) (now : Nat)
    (h : BreakerInv b1) : BreakerInv (on_failure b1 name e now).1 := by
  unfold on_failure
  by_cases hth : b1.failure_count + 1 ≥ b1.failure_threshold
  · simp only [if_pos hth]
    intro _
    exact ⟨hth, now, rfl⟩
  · simp only [if_neg hth]
    intro hopen
    simp only at hopen
    rcases h hopen with ⟨hle, _⟩
    exact ⟨Nat.le_succ_of_le hle, now, rfl⟩

theorem managerInv_get_breaker {m : CircuitBreakerManager} (name : String)
    (h : ManagerInv m) :
    ManagerInv (get_breaker m name).2 ∧ BreakerInv (get_breaker m name).1 := by
  unfold get_breaker
  cases hl : lookupBreaker m.breakers name with
  | some b =>
    simp only
    exact ⟨h, h name b hl⟩
  | none =>
    simp only
    constructor
    · intro k c hc
      rcases lookupBreaker_append_cases m.breakers name k _ c hc with hold | hnew
      · exact h k c hold
      · subst hnew
        intro hopen
        simp at hopen
    · intro hopen
      simp at hopen

theorem managerInv_call_service {V : Type} {m : CircuitBreakerManager}
    (name : String) (outcome : Except String V) (now : Nat)
    (h : ManagerInv m) : ManagerInv (call_service m name outcome now).manager := by
  have hg := managerInv_get_breaker name h (m := m)
  unfold call_service
  by_cases hgate :
      (get_breaker m name).1.state = CircuitState.OPEN ∧
        ¬ (should_attempt_reset now (get_breaker m name).1 = true)
  · simpa [hgate] using hg.1
  · have hb1 : BreakerInv (gate_transform (get_breaker m name).1 name).1 :=
      breakerInv_gate_transform name hg.2
    cases outcome with
    | ok v =>
      simp only [if_neg hgate]
      intro k c hc
      rcases lookupBreaker_setBreaker_cases _ name k _ c hc with hnew | hold
      · subst hnew
        exact breakerInv_on_success name hb1
      · exact hg.1 k c hold
    | error e =>
      simp only [if_neg hgate]
      intro k c hc
      rcases lookupBreaker_setBreaker_cases _ name k _ c hc with hnew | hold
      · subst hnew
        exact breakerInv_on_failure name e now hb1
      · exact hg.1 k c hold

theorem managerInv_reset_breaker {m : CircuitBreakerManager} (name : String)
    (h : ManagerInv m) : ManagerInv (reset_breaker m name).2 := by
  unfold reset_breaker
  cases hl : lookupBreaker m.breakers name with
  | some b =>
    simp only
    intro k c hc
    rcases lookupBreaker_setBreaker_cases _ name k _ c hc with hnew | hold
    · subst hnew
      intro hopen
      simp at hopen
    · exact h k c hold
  | none =>
    simpa using h

theorem managerInv_initial : ManagerInv initialManager := by
  intro name b hb
  simp [initialManager, lookupBreaker] at hb

theorem reachable_managerInv {m : CircuitBreakerManager} (h : Reachable m) :
    ManagerInv m := by
  induction h with
  | init => exact managerInv_initial
  | call name outcome now _ ih => exact managerInv_call_service name outcome now ih
  | status _ ih => exact ih
  | reset name _ ih => exact managerInv_reset_breaker name ih

/-! ### Substring lemmas -/

theorem beginsWith_append_self (need rest : List Char) :
    beginsWith need (need ++ rest) = true := by
  induction need with
  | nil => rfl
  | cons c cs ih => simp [beginsWith, ih]

theorem containsSub_of_begins {need hay : List Char}
    (h : beginsWith need hay = true) : containsSub need hay = true := by
  cases hay with
  | nil => simpa [containsSub] using h
  | cons c t => simp [containsSub, h]

theorem containsSub_sandwich (need pre rest : List Char) :
    containsSub need (pre ++ need ++ rest) = true := by
  induction pre with
  | nil =>
    simpa using containsSub_of_begins (beginsWith_append_self need rest)
  | cons c cs ih =>
    simp only [containsSub, List.cons_append, Bool.or_eq_true]
    exact Or.inr (by simpa [List.append_assoc] using ih)

theorem strContains_sandwich (p mid s : String) :
    strContains (p ++ mid ++ s) mid = true := by
  show containsSub mid.data (p ++ mid ++ s).data = true
  rw [String.data_append, String.data_append]
  exact containsSub_sandwich mid.data p.data s.data

theorem circuitOpenMessage_names_service (name : String) :
    strContains (circuitOpenMessage name) name = true :=
  strContains_sandwich "Circuit breaker OPEN for " name " - service unavailable"

theorem circuitOpenMessage_has_marker (name : String) :
    strContains (circuitOpenMessage name) "Circuit breaker OPEN" = true := by
  show containsSub ("Circuit breaker OPEN").data (circuitOpenMessage name).data = true
  have h : (circuitOpenMessage name).data =
      ("Circuit breaker OPEN").data ++
        (" for ".data ++ name.data ++ " - service unavailable".data) := by
    show (("Circuit breaker OPEN for " ++ name) ++ " - service unavailable").data = _
    rw [String.data_append, String.data_append]
    have h25 : "Circuit breaker OPEN for ".data =
        "Circuit breaker OPEN".data ++ " for ".data := by decide
    rw [h25]
    simp [List.append_assoc]
  rw [h]
  exact containsSub_of_begins (beginsWith_append_self _ _)

/-! ### The fail-fast gate -/

theorem get_breaker_of_lookup {m : CircuitBreakerManager} {name : String} {b : CircuitBreaker}
    (hb : lookupBreaker m.breakers name = some b) : get_breaker m name = (b, m) := by
  unfold get_breaker
  rw [hb]

theorem call_service_gated {V : Type} {m : CircuitBreakerManager} {name : String}
    {b : CircuitBreaker} {t now : Nat} (outcome : Except String V)
    (hb : lookupBreaker m.breakers name = some b)
    (hopen : b.state = CircuitState.OPEN)
    (ht : b.last_failure_time = some t)
    (helapsed : now - t ≤ b.timeout_seconds) :
    call_service m name outcome now =
      { result := Except.error (circuitOpenMessage name)
        manager := m
        logs := []
        invocations := 0 } := by
  unfold call_service
  rw [get_breaker_of_lookup hb]
  have hsar : should_attempt_reset now b = false := by
    unfold should_attempt_reset
    rw [ht]
    simpa using helapsed
  simp [hopen, hsar]

/-! ### Retry loop lemmas -/

theorem retry_go_all_fail {V : Type} (msgs : Nat → String) (f : Nat → Except String V)
    (hf : ∀ i, f i = Except.error (msgs i)) (base : ℚ) (jitter : Nat → ℚ) (N : Nat) :
    ∀ d k last, k ≤ N → N - k = d →
      (retry_go f base jitter N (N + 1 - k) k last).1 = RetryResult.err (msgs N) ∧
      (retry_go f base jitter N (N + 1 - k) k last).2.1 = N + 1 - k := by
  intro d
  induction d with
  | zero =>
    intro k last hk hd
    have hkN : k = N := by omega
    subst hkN
    have h1 : k + 1 - k = 0 + 1 := by omega
    rw [h1]
    simp [retry_go, hf k]
  | succ d ih =>
    intro k last hk hd
    have hklt : k < N := by omega
    have h1 : N + 1 - k = (N + 1 - (k + 1)) + 1 := by omega
    have hrec := ih (k + 1) (some (msgs k)) (by omega) (by omega)
    rw [h1]
    simp only [retry_go, hf k]
    refine ⟨hrec.1, ?_⟩
    rw [hrec.2]

theorem retry_go_err_step {V : Type} (f : Nat → Except String V) (base : ℚ)
    (jitter : Nat → ℚ) (maxA rem attempt : Nat) (last : Option String) (e : String)
    (hfa : f attempt = Except.error e) :
    retry_go f base jitter maxA (rem + 1) attempt last =
      ((retry_go f base jitter maxA rem (attempt + 1) (some e)).1,
        (retry_go f base jitter maxA rem (attempt + 1) (some e)).2.1 + 1,
        (retry_go f base jitter maxA rem (attempt + 1) (some e)).2.2 +
          (if attempt < maxA then base * 2 ^ (attempt - 1) + jitter attempt else 0)) := by
  simp [retry_go, hfa]

theorem retry_go_ok_step {V : Type} (f : Nat → Except String V) (base : ℚ)
    (jitter : Nat → ℚ) (maxA rem attempt : Nat) (last : Option String) (v : V)
    (hfa : f attempt = Except.ok v) :
    retry_go f base jitter maxA (rem + 1) attempt last = (RetryResult.ok v, 1, 0) := by
  simp [retry_go, hfa]

/-! ### Concrete executions used as witnesses -/

/-- One failing dispatch for `"catalog"` at time 0, from the empty registry. -/
def trip1 : CircuitBreakerManager :=
  (call_service initialManager "catalog" (Except.error "boom" : Except String Unit) 0).manager

/-- A second consecutive failure at time 1. -/
def trip2 : CircuitBreakerManager :=
  (call_service trip1 "catalog" (Except.error "boom" : Except String Unit) 1).manager

/-- A third consecutive failure at time 2: the breaker trips. -/
def trip3 : CircuitBreakerManager :=
  (call_service trip2 "catalog" (Except.error "boom" : Except String Unit) 2).manager

/-- The open breaker those three failures produce. -/
def bOpen : CircuitBreaker :=
  { service_name := "catalog", state := CircuitState.OPEN, failure_count := 3,
    last_failure_time := some 2, failure_threshold := 3, timeout_seconds := 30 }

theorem trip3_reachable : Reachable trip3 :=
  Reachable.call "catalog" (Except.error "boom" : Except String Unit) 2
    (Reachable.call "catalog" (Except.error "boom" : Except String Unit) 1
      (Reachable.call "catalog" (Except.error "boom" : Except String Unit) 0 Reachable.init))

/-! ### The claims -/

/-- C1: for every service whose breaker is `Open` and whose timeout has not
yet elapsed since `last_failure_time`, `call_service` raises a
`CircuitOpenError` naming the service, does not invoke the backend
operation (0 invocations), and leaves the breaker's state, `failure_count`
and `last_failure_time` — indeed the whole registry — unchanged. -/
theorem claim_C1 {V : Type} (m : CircuitBreakerManager) (name : String)
    (b : CircuitBreaker) (t now : Nat) (outcome : Except String V)
    (hb : lookupBreaker m.breakers name = some b)
    (hopen : b.state = CircuitState.OPEN)
    (ht : b.last_failure_time = some t)
    (helapsed : now - t ≤ b.timeout_seconds) :
    call_service m name outcome now =
      { result := Except.error (circuitOpenMessage name)
        manager := m
        logs := []
        invocations := 0 } ∧
    strContains (circuitOpenMessage name) name = true :=
  ⟨call_service_gated outcome hb hopen ht helapsed, circuitOpenMessage_names_service name⟩

/-- Witness for C1: after three failures at times 0, 1, 2, a call for
`"catalog"` at time 10 (within the 30s timeout) is gated. -/
theorem claim_C1_witness :
    lookupBreaker trip3.breakers "catalog" = some bOpen ∧
    bOpen.state = CircuitState.OPEN ∧
    call_service trip3 "catalog" (Except.ok 5 : Except String Nat) 10 =
      { result := Except.error (circuitOpenMessage "catalog")
        manager := trip3
        logs := []
        invocations := 0 } :=
  ⟨by decide, by decide,
    (claim_C1 trip3 "catalog" bOpen 2 10 (Except.ok 5)
      (by decide) (by decide) (by decide) (by decide)).1⟩

/-- C5: in every registry state reachable from the empty registry by
`call_service`, `get_status` and `reset_breaker` operations, every breaker
whose state is `Open` has `failure_count >= failure_threshold`. -/
theorem claim_C5 (m : CircuitBreakerManager) (h : Reachable m)
    (name : String) (b : CircuitBreaker)
    (hb : lookupBreaker m.breakers name = some b)
    (hopen : b.state = CircuitState.OPEN) :
    b.failure_threshold ≤ b.failure_count :=
  ((reachable_managerInv h) name b hb hopen).1

/-- Witness for C5: the tripped `"catalog"` breaker is reachable, open, and
its failure count 3 has reached its threshold 3. -/
theorem claim_C5_witness :
    Reachable trip3 ∧ bOpen.failure_threshold ≤ bOpen.failure_count :=
  ⟨trip3_reachable,
    claim_C5 trip3 trip3_reachable "catalog" bOpen (by decide) (by decide)⟩

/-- C10: in every reachable registry state, every breaker whose state is
`Open` has `last_failure_time` present; consequently the open-breaker
timeout check is exactly the elapsed-time comparison and never takes the
absent-timestamp branch that would immediately permit a probe. -/
theorem claim_C10 (m : CircuitBreakerManager) (h : Reachable m)
    (name : String) (b : CircuitBreaker)
    (hb : lookupBreaker m.breakers name = some b)
    (hopen : b.state = CircuitState.OPEN) :
    (∃ t, b.last_failure_time = some t) ∧
    ∀ t, b.last_failure_time = some t →
      ∀ now, should_attempt_reset now b = decide (b.timeout_seconds < now - t) := by
  refine ⟨((reachable_managerInv h) name b hb hopen).2, ?_⟩
  intro t ht now
  unfold should_attempt_reset
  rw [ht]

/-- Witness for C10: the reachable open `"catalog"` breaker has a recorded
last failure time. -/
theorem claim_C10_witness :
    Reachable trip3 ∧ (∃ t, bOpen.last_failure_time = some t) :=
  ⟨trip3_reachable,
    (claim_C10 trip3 trip3_reachable "catalog" bOpen (by decide) (by decide)).1⟩

/-- C7: `reset_breaker` on a known service sets that breaker to `Closed`,
zero failures and absent `last_failure_time` regardless of prior state and
returns true; on an unknown service it returns false and leaves the whole
registry (hence every existing breaker) unchanged, creating nothing. -/
theorem claim_C7 (m : CircuitBreakerManager) (name : String) :
    (∀ b, lookupBreaker m.breakers name = some b →
      (reset_breaker m name).1 = true ∧
      lookupBreaker (reset_breaker m name).2.breakers name =
        some { b with state := CircuitState.CLOSED, failure_count := 0,
                      last_failure_time := none }) ∧
    (lookupBreaker m.breakers name = none →
      (reset_breaker m name).1 = false ∧ (reset_breaker m name).2 = m) := by
  constructor
  · intro b hb
    unfold reset_breaker
    rw [hb]
    refine ⟨rfl, ?_⟩
    simp only
    rw [lookupBreaker_setBreaker, hb]
    rfl
  · intro hnone
    unfold reset_breaker
    rw [hnone]
    exact ⟨rfl, rfl⟩

/-- Witness for C7: resetting the tripped `"catalog"` breaker yields true
and a closed, zeroed breaker; resetting unknown `"nope"` yields false and
an unchanged registry. -/
theorem claim_C7_witness :
    ((reset_breaker trip3 "catalog").1 = true ∧
      lookupBreaker (reset_breaker trip3 "catalog").2.breakers "catalog" =
        some { bOpen with state := CircuitState.CLOSED, failure_count := 0,
                          last_failure_time := none }) ∧
    ((reset_breaker trip3 "nope").1 = false ∧ (reset_breaker trip3 "nope").2 = trip3) :=
  ⟨(claim_C7 trip3 "catalog").1 bOpen (by decide),
    (claim_C7 trip3 "nope").2 (by decide)⟩

/-- C8: for every backend operation that fails on every invocation and
every `max_attempts = N ≥ 1`, `retry_call` invokes the operation exactly
`N` times and finally raises exactly the failure produced by the `N`-th
attempt. -/
theorem claim_C8 {V : Type} (msgs : Nat → String) (f : Nat → Except String V)
    (N : Nat) (base : ℚ) (jitter : Nat → ℚ)
    (hf : ∀ i, f i = Except.error (msgs i)) (hN : 1 ≤ N) :
    (retry_call N base jitter f).1 = RetryResult.err (msgs N) ∧
    (retry_call N base jitter f).2.1 = N := by
  have h := retry_go_all_fail msgs f hf base jitter N (N - 1) 1 none hN (by omega)
  have h1 : N + 1 - 1 = N := by omega
  rw [h1] at h
  exact ⟨h.1, h.2⟩

/-- Backend that always fails with the same message, for the C8 witness. -/
def alwaysFail : Nat → Except String Nat := fun _ => Except.error "always"

/-- Witness for C8: with `max_attempts = 2` and an always-failing backend,
exactly 2 invocations occur and the second attempt's failure is raised. -/
theorem claim_C8_witness :
    (1 : Nat) ≤ 2 ∧
    (retry_call 2 1 (fun _ => 0) alwaysFail).1 = RetryResult.err "always" ∧
    (retry_call 2 1 (fun _ => 0) alwaysFail).2.1 = 2 := by
  have h := claim_C8 (fun _ => "always") alwaysFail 2 1 (fun _ => 0)
    (fun i => rfl) (by decide)
  exact ⟨by decide, h.1, h.2⟩

/-- C9: with `max_attempts = 3` and a backend failing on invocations 1 and 2
and succeeding on invocation 3, exactly 3 invocations occur, the third
attempt's result is returned, and the total backoff slept is at least
`base_delay + 2*base_delay` excluding (non-negative) jitter; in general the
first successful attempt returns immediately with exactly one invocation
and no backoff. -/
theorem claim_C9 {V : Type} (base : ℚ) (jitter : Nat → ℚ) (f : Nat → Except String V)
    (e1 e2 : String) (v : V)
    (h1 : f 1 = Except.error e1) (h2 : f 2 = Except.error e2) (h3 : f 3 = Except.ok v)
    (hj : ∀ i, 0 ≤ jitter i) :
    (retry_call 3 base jitter f).1 = RetryResult.ok v ∧
    (retry_call 3 base jitter f).2.1 = 3 ∧
    base + 2 * base ≤ (retry_call 3 base jitter f).2.2 ∧
    (∀ (g : Nat → Except String V) (w : V) (M : Nat), 1 ≤ M → g 1 = Except.ok w →
      retry_call M base jitter g = (RetryResult.ok w, 1, 0)) := by
  have s3 : retry_go f base jitter 3 (0 + 1) 3 (some e2) = (RetryResult.ok v, 1, 0) :=
    retry_go_ok_step f base jitter 3 0 3 (some e2) v h3
  have s2 : retry_go f base jitter 3 (0 + 1 + 1) 2 (some e1) =
      (RetryResult.ok v, 2, 0 + (base * 2 ^ (2 - 1) + jitter 2)) := by
    rw [retry_go_err_step f base jitter 3 (0 + 1) 2 (some e1) e2 h2, s3]
    norm_num
  have s1 : retry_go f base jitter 3 (0 + 1 + 1 + 1) 1 none =
      (RetryResult.ok v, 3, 0 + (base * 2 ^ (2 - 1) + jitter 2) +
        (base * 2 ^ (1 - 1) + jitter 1)) := by
    rw [retry_go_err_step f base jitter 3 (0 + 1 + 1) 1 none e1 h1, s2]
    norm_num
  have hcall : retry_call 3 base jitter f =
      (RetryResult.ok v, 3, 0 + (base * 2 ^ (2 - 1) + jitter 2) +
        (base * 2 ^ (1 - 1) + jitter 1)) := by
    show retry_go f base jitter 3 (0 + 1 + 1 + 1) 1 none = _
    exact s1
  refine ⟨by rw [hcall], by rw [hcall], ?_, ?_⟩
  · rw [hcall]
    have hj1 := hj 1
    have hj2 := hj 2
    norm_num
    linarith
  · intro g w M hM hg
    obtain ⟨M', rfl⟩ : ∃ M', M = M' + 1 := ⟨M - 1, by omega⟩
    show retry_go g base jitter (M' + 1) (M' + 1) 1 none = _
    exact retry_go_ok_step g base jitter (M' + 1) M' 1 none w hg

/-- Backend failing twice then succeeding, for the C9 witness. -/
def failTwice : Nat → Except String Nat :=
  fun n => if n ≤ 2 then Except.error "transient" else Except.ok 42

/-- Witness for C9: at `base_delay = 1` with zero jitter, the
fails-twice-then-succeeds backend yields the third attempt's result after
exactly 3 invocations. -/
theorem claim_C9_witness :
    failTwice 1 = Except.error "transient" ∧
    failTwice 3 = Except.ok 42 ∧
    (retry_call 3 1 (fun _ => 0) failTwice).1 = RetryResult.ok 42 ∧
    (retry_call 3 1 (fun _ => 0) failTwice).2.1 = 3 := by
  have h := claim_C9 1 (fun _ => 0) failTwice "transient" "transient" 42
    (by decide) (by decide) (by decide) (fun i => le_refl 0)
  exact ⟨by decide, by decide, h.1, h.2.1⟩

/-- Backend whose failures are classified non-retryable, for C4. -/
def notFoundBackend : Nat → Except String Nat :=
  fun _ => Except.error "Product not found"

/-- C4: the claim says `retry_call` consults the retry-eligibility predicate
and propagates a non-retryable failure ("not found" etc.) immediately with
no further attempts.  The code never consults `should_retry`: a backend
failing with "Product not found" (classified non-retryable) is still
retried for all 3 attempts.  This theorem evaluates the code at that
failing input. -/
theorem claim_C4 :
    should_retry "Product not found" = false ∧
    (retry_call 3 1 (fun _ => 0) notFoundBackend).2.1 = 3 ∧
    (retry_call 3 1 (fun _ => 0) notFoundBackend).1 =
      RetryResult.err "Product not found" := by
  refine ⟨by decide, ?_, ?_⟩
  · have h := retry_go_all_fail (fun _ => "Product not found") notFoundBackend
      (fun i => rfl) 1 (fun _ => 0) 3 2 1 none (by decide) (by decide)
    exact h.2
  · have h := retry_go_all_fail (fun _ => "Product not found") notFoundBackend
      (fun i => rfl) 1 (fun _ => 0) 3 2 1 none (by decide) (by decide)
    exact h.1

theorem gate_transform_spec (b0 : CircuitBreaker) (name : String) :
    (gate_transform b0 name).1.failure_count = b0.failure_count ∧
    (gate_transform b0 name).1.failure_threshold = b0.failure_threshold ∧
    (gate_transform b0 name).1.state ≠ CircuitState.OPEN := by
  unfold gate_transform
  by_cases h : b0.state = CircuitState.OPEN
  · simp [h]
  · simp [h]

theorem on_failure_spec (b1 : CircuitBreaker) (name e : String) (now : Nat)
    (hb1 : b1.state ≠ CircuitState.OPEN) :
    (on_failure b1 name e now).1.failure_count = b1.failure_count + 1 ∧
    (on_failure b1 name e now).1.last_failure_time = some now ∧
    (on_failure b1 name e now).1.failure_threshold = b1.failure_threshold ∧
    ((on_failure b1 name e now).1.state = CircuitState.OPEN ↔
      b1.failure_threshold ≤ b1.failure_count + 1) ∧
    ("[CIRCUIT] Service " ++ name ++ " failed (" ++ toString (b1.failure_count + 1) ++ "/" ++
      toString b1.failure_threshold ++ "): " ++ e) ∈ (on_failure b1 name e now).2 := by
  unfold on_failure
  by_cases h : b1.failure_count + 1 ≥ b1.failure_threshold
  · simp [h]
  · simp [h]
    intro hst
    exact absurd hst hb1

/-- C3: for every reachable registry whose breaker for a service is `Open`
with the timeout elapsed since `last_failure_time`, the next `call_service`
transitions it to `HalfOpen` (witnessed by the HALF-OPEN log line) and
performs exactly one backend invocation; a succeeding probe leaves the
breaker `Closed` with `failure_count = 0`, a failing probe leaves it `Open`
again. -/
theorem claim_C3 {V : Type} (m : CircuitBreakerManager) (name : String)
    (b : CircuitBreaker) (t now : Nat) (outcome : Except String V)
    (hr : Reachable m)
    (hb : lookupBreaker m.breakers name = some b)
    (hopen : b.state = CircuitState.OPEN)
    (ht : b.last_failure_time = some t)
    (helapsed : b.timeout_seconds < now - t) :
    (call_service m name outcome now).invocations = 1 ∧
    ("[CIRCUIT] Circuit breaker for " ++ name ++ " is HALF-OPEN (testing)")
      ∈ (call_service m name outcome now).logs ∧
    (∀ v, outcome = Except.ok v →
      (call_service m name outcome now).result = Except.ok v ∧
      ∃ b', lookupBreaker (call_service m name outcome now).manager.breakers name = some b' ∧
        b'.state = CircuitState.CLOSED ∧ b'.failure_count = 0) ∧
    (∀ e, outcome = Except.error e →
      (call_service m name outcome now).result = Except.error e ∧
      ∃ b', lookupBreaker (call_service m name outcome now).manager.breakers name = some b' ∧
        b'.state = CircuitState.OPEN) := by
  have hth : b.failure_threshold ≤ b.failure_count :=
    ((reachable_managerInv hr) name b hb hopen).1
  have hsar : should_attempt_reset now b = true := by
    unfold should_attempt_reset
    rw [ht]
    simpa using helapsed
  have hgb := get_breaker_of_lookup hb
  have hgate : ¬ (b.state = CircuitState.OPEN ∧ ¬ (should_attempt_reset now b = true)) := by
    simp [hsar]
  have hgt : gate_transform b name =
      ({ b with state := CircuitState.HALF_OPEN },
        ["[CIRCUIT] Circuit breaker for " ++ name ++ " is HALF-OPEN (testing)"]) := by
    simp [gate_transform, hopen]
  cases outcome with
  | ok v =>
    have hos : on_success { b with state := CircuitState.HALF_OPEN } name =
        ({ b with state := CircuitState.CLOSED, failure_count := 0 },
          ["[CIRCUIT] Circuit breaker for " ++ name ++ " is CLOSED (recovered)"]) := by
      simp [on_success]
    have hcs : call_service m name (Except.ok v : Except String V) now =
        { result := Except.ok v
          manager := { m with breakers := setBreaker m.breakers name { b with state := CircuitState.CLOSED, failure_count := 0 } }
          logs := ["[CIRCUIT] Circuit breaker for " ++ name ++ " is HALF-OPEN (testing)",
            "[CIRCUIT] Circuit breaker for " ++ name ++ " is CLOSED (recovered)"]
          invocations := 1 } := by
      unfold call_service
      rw [hgb, if_neg hgate]
      simp [hgt, hos]
    rw [hcs]
    refine ⟨rfl, by simp, ?_, ?_⟩
    · intro v' hv'
      obtain rfl : v = v' := by injection hv'
      refine ⟨rfl, { b with state := CircuitState.CLOSED, failure_count := 0 }, ?_, rfl, rfl⟩
      simp only
      rw [lookupBreaker_setBreaker, hb]
      rfl
    · intro e he
      exact absurd he (by simp)
  | error e =>
    have hb1 : ({ b with state := CircuitState.HALF_OPEN } : CircuitBreaker).state ≠
        CircuitState.OPEN := by simp
    have hof : (on_failure ({ b with state := CircuitState.HALF_OPEN }) name e now).1.state =
        CircuitState.OPEN := by
      have hspec := on_failure_spec ({ b with state := CircuitState.HALF_OPEN }) name e now hb1
      exact hspec.2.2.2.1.mpr (by simpa using Nat.le_succ_of_le hth)
    have hcs : call_service m name (Except.error e : Except String V) now =
        { result := Except.error e
          manager := { m with breakers := setBreaker m.breakers name (on_failure ({ b with state := CircuitState.HALF_OPEN }) name e now).1 }
          logs := ("[CIRCUIT] Circuit breaker for " ++ name ++ " is HALF-OPEN (testing)") ::
            (on_failure ({ b with state := CircuitState.HALF_OPEN }) name e now).2
          invocations := 1 } := by
      unfold call_service
      rw [hgb, if_neg hgate]
      simp [hgt]
    rw [hcs]
    refine ⟨rfl, by simp, ?_, ?_⟩
    · intro v hv
      exact absurd hv (by simp)
    · intro e' he'
      obtain rfl : e = e' := by injection he'
      refine ⟨rfl, (on_failure ({ b with state := CircuitState.HALF_OPEN }) name e now).1, ?_, hof⟩
      simp only
      rw [lookupBreaker_setBreaker, hb]
      rfl

/-- Witness for C3: probing the tripped `"catalog"` breaker at time 100
(timeout elapsed) performs exactly one backend invocation. -/
theorem claim_C3_witness :
    Reachable trip3 ∧
    (call_service trip3 "catalog" (Except.ok 5 : Except String Nat) 100).invocations = 1 :=
  ⟨trip3_reachable,
    (claim_C3 trip3 "catalog" bOpen 2 100 (Except.ok 5) trip3_reachable
      (by decide) (by decide) (by decide) (by decide)).1⟩

/-- C6: whenever `call_service` attempts the backend (one invocation) and
the backend fails, the breaker's `failure_count` is incremented by exactly
1, `last_failure_time` is set to the current time, the breaker ends `Open`
exactly when the incremented count reaches its threshold, and the original
failure is re-raised while the failure log line tagged with the service
name is emitted. -/
theorem claim_C6 {V : Type} (m : CircuitBreakerManager) (name : String)
    (e : String) (now : Nat)
    (hatt : (call_service m name (Except.error e : Except String V) now).invocations = 1) :
    ∃ b', lookupBreaker
        (call_service m name (Except.error e : Except String V) now).manager.breakers name =
        some b' ∧
      b'.failure_count = (get_breaker m name).1.failure_count + 1 ∧
      b'.last_failure_time = some now ∧
      (b'.state = CircuitState.OPEN ↔
        (get_breaker m name).1.failure_threshold ≤ (get_breaker m name).1.failure_count + 1) ∧
      (call_service m name (Except.error e : Except String V) now).result = Except.error e ∧
      ("[CIRCUIT] Service " ++ name ++ " failed (" ++ toString (b'.failure_count) ++ "/" ++
          toString b'.failure_threshold ++ "): " ++ e)
        ∈ (call_service m name (Except.error e : Except String V) now).logs := by
  by_cases hgate :
      (get_breaker m name).1.state = CircuitState.OPEN ∧
        ¬ (should_attempt_reset now (get_breaker m name).1 = true)
  · exfalso
    unfold call_service at hatt
    rw [if_pos hgate] at hatt
    simp at hatt
  · have hg := gate_transform_spec (get_breaker m name).1 name
    have hspec := on_failure_spec (gate_transform (get_breaker m name).1 name).1 name e now
      hg.2.2
    have hcs : call_service m name (Except.error e : Except String V) now =
        { result := Except.error e
          manager := { (get_breaker m name).2 with breakers := setBreaker (get_breaker m name).2.breakers name (on_failure (gate_transform (get_breaker m name).1 name).1 name e now).1 }
          logs := (gate_transform (get_breaker m name).1 name).2 ++
            (on_failure (gate_transform (get_breaker m name).1 name).1 name e now).2
          invocations := 1 } := by
      simp only [call_service]
      rw [if_neg hgate]
    rw [hcs]
    refine ⟨(on_failure (gate_transform (get_breaker m name).1 name).1 name e now).1,
      ?_, ?_, ?_, ?_, rfl, ?_⟩
    · rw [lookupBreaker_setBreaker, get_breaker_lookup]
      rfl
    · rw [hspec.1, hg.1]
    · exact hspec.2.1
    · rw [hspec.2.2.2.1, hg.1, hg.2.1]
    · rw [hspec.1, hg.1, hspec.2.2.1, hg.2.1]
      have hlog := hspec.2.2.2.2
      rw [hg.1, hg.2.1] at hlog
      exact List.mem_append_right _ hlog

/-- Witness for C6: the first failing call for `"cart"` on the empty
registry attempts the backend and records the failure. -/
theorem claim_C6_witness :
    (call_service initialManager "cart" (Except.error "boom" : Except String Nat) 7).invocations
      = 1 ∧
    ∃ b', lookupBreaker
        (call_service initialManager "cart"
          (Except.error "boom" : Except String Nat) 7).manager.breakers "cart" = some b' ∧
      b'.failure_count = (get_breaker initialManager "cart").1.failure_count + 1 ∧
      b'.last_failure_time = some 7 ∧
      (b'.state = CircuitState.OPEN ↔
        (get_breaker initialManager "cart").1.failure_threshold ≤
          (get_breaker initialManager "cart").1.failure_count + 1) ∧
      (call_service initialManager "cart"
        (Except.error "boom" : Except String Nat) 7).result = Except.error "boom" ∧
      ("[CIRCUIT] Service " ++ "cart" ++ " failed (" ++ toString (b'.failure_count) ++ "/" ++
          toString b'.failure_threshold ++ "): " ++ "boom")
        ∈ (call_service initialManager "cart"
            (Except.error "boom" : Except String Nat) 7).logs :=
  ⟨by decide, claim_C6 initialManager "cart" "boom" 7 (by decide)⟩

/-- C2 (amended): in `call_with_mesh`, a breaker-gated `CircuitOpenError` is
propagated immediately with no retry attempt and no registry change; a
backend failure whose message does not contain the substring
`"Circuit breaker OPEN"` is escalated to `retry_call`, whose result or
final failure is returned, and those direct retries never change any
breaker (the final registry is exactly the one the breaker-gated phase
left).  The original claim's stronger form — that every non-`CircuitOpenError`
failure is escalated — fails: the code dispatches on the substring, see the
counterexample. -/
theorem claim_C2 {V : Type} (m : CircuitBreakerManager) (name : String)
    (f : Nat → Except String V) (now max_attempts : Nat) (base : ℚ) (jitter : Nat → ℚ) :
    (∀ b t, lookupBreaker m.breakers name = some b → b.state = CircuitState.OPEN →
      b.last_failure_time = some t → now - t ≤ b.timeout_seconds →
      call_with_mesh m name f now max_attempts base jitter =
        { result := RetryResult.err (circuitOpenMessage name)
          manager := m
          logs := []
          breaker_invocations := 0
          retry_invocations := 0
          retry_sleep := 0 }) ∧
    (∀ e, (call_service m name (f 1) now).result = Except.error e →
      strContains e "Circuit breaker OPEN" = false →
      call_with_mesh m name f now max_attempts base jitter =
        { result := (retry_call max_attempts base jitter (fun n => f (n + 1))).1
          manager := (call_service m name (f 1) now).manager
          logs := (call_service m name (f 1) now).logs
          breaker_invocations := (call_service m name (f 1) now).invocations
          retry_invocations := (retry_call max_attempts base jitter (fun n => f (n + 1))).2.1
          retry_sleep := (retry_call max_attempts base jitter (fun n => f (n + 1))).2.2 }) := by
  constructor
  · intro b t hb hopen ht hto
    have hcs := call_service_gated (f 1) hb hopen ht hto
    simp only [call_with_mesh]
    rw [hcs]
    simp [circuitOpenMessage_has_marker]
  · intro e he hnc
    simp only [call_with_mesh]
    rw [he]
    simp [hnc]

/-- Witness for C2's amended statement: the tripped `"catalog"` breaker at
time 10 gates the call and no retry attempt is made; separately, a plain
`"boom"` backend failure on the empty registry is escalated to the retry
loop. -/
theorem claim_C2_witness :
    (call_with_mesh trip3 "catalog" (fun _ => (Except.error "boom" : Except String Nat)) 10 3 1
        (fun _ => 0) =
      { result := RetryResult.err (circuitOpenMessage "catalog")
        manager := trip3
        logs := []
        breaker_invocations := 0
        retry_invocations := 0
        retry_sleep := 0 }) ∧
    (call_with_mesh initialManager "cart" (fun _ => (Except.error "boom" : Except String Nat)) 0
        3 1 (fun _ => 0)).retry_invocations =
      (retry_call 3 (1 : ℚ) (fun _ => 0)
        (fun n => (fun _ => (Except.error "boom" : Except String Nat)) (n + 1))).2.1 := by
  constructor
  · exact (claim_C2 trip3 "catalog" (fun _ => (Except.error "boom" : Except String Nat)) 10 3 1
      (fun _ => 0)).1 bOpen 2 (by decide) (by decide) (by decide) (by decide)
  · have h := (claim_C2 initialManager "cart"
      (fun _ => (Except.error "boom" : Except String Nat)) 0 3 1 (fun _ => 0)).2
      "boom" (by decide) (by decide)
    rw [h]

/-- A backend whose failure message spuriously contains the gateway's
dispatch marker. -/
def advBackend : Nat → Except String Nat :=
  fun _ => Except.error "spurious Circuit breaker OPEN"

/-- Counterexample to C2 as stated: on the empty registry the breaker
allows the attempt (1 backend invocation) and the backend fails with a
message that is not the breaker's `CircuitOpenError` — yet the gateway
performs no retry and propagates the failure, because its dispatch matches
the substring `"Circuit breaker OPEN"` in the message. -/
theorem claim_C2_counterexample :
    (call_with_mesh initialManager "cart" advBackend 0 3 1 (fun _ => 0)).breaker_invocations
      = 1 ∧
    "spurious Circuit breaker OPEN" ≠ circuitOpenMessage "cart" ∧
    (call_with_mesh initialManager "cart" advBackend 0 3 1 (fun _ => 0)).retry_invocations
      = 0 ∧
    (call_with_mesh initialManager "cart" advBackend 0 3 1 (fun _ => 0)).result =
      RetryResult.err "spurious Circuit breaker OPEN" := by
  refine ⟨by decide, by decide, by decide, by decide⟩

end ServiceMesh
